import Mathlib

/-!
Shallow embedding of `src/main.rs` of `marallys-auth-patcher` (binary
`mmcai_rs`): argument validation, authlib-injector discovery, the
two-phase Yggdrasil login protocol, and the Minecraft launch-parameter
rewriter.  Strings are modelled at the character level (Rust's byte-level
`starts_with` / `ends_with` / `contains` / `replace` on valid UTF-8 agree
with the character-level relations, since UTF-8 is a prefix code).
Network effects are modelled by an explicit transport oracle; the trace
records the URLs of the POST requests the login function issues.
-/

namespace Mmcai

/-- Model of an opaque `reqwest::Error` value: only its identity matters. -/
structure ReqErr where
  code : Nat
deriving DecidableEq, Repr

/-- Deserialized `data` object of the sign-in response (`struct AuthData`). -/
structure AuthData where
  uuid : String
  name : String
  access_token : String
  expired_date : Option String
  texture_skin_url : Option String
  texture_cloak_url : Option String
  texture_skin_guid : Option String
  texture_cloak_guid : Option String
  full_skin_url : Option String
deriving DecidableEq, Repr

/-- Deserialized sign-in response (`struct AuthResponse`). -/
structure AuthResponse where
  data : AuthData
  status : String
  status_code : Nat
  message : String
  errors : List String
deriving DecidableEq, Repr

/-- Player profile (`struct Profile`). -/
structure Profile where
  id : String
  name : String
deriving DecidableEq, Repr

/-- Successful login output (`struct LoginResult`). -/
structure LoginResult where
  prefetched_data : String
  access_token : String
  selected_profile : Profile
deriving DecidableEq, Repr

/-- The error enum `MmcaiError` (module `errors` is declared in `main.rs`;
its variants and payloads are those used by `main.rs`). -/
inductive MmcaiError where
  | InvalidArgument (arg : String)
  | CannotRunDirectly
  | AuthlibInjectorNotFound
  | ReqwestClientBuildFailed (e : ReqErr)
  | YggdrasilHelloFailed (e : ReqErr)
  | YggdrasilAuthFailed (source : ReqErr) (response : String)
  | Other
deriving DecidableEq, Repr

/-- Rust `line.contains(pat)`: `pat` occurs as a contiguous substring. -/
def strContains (line pat : String) : Bool :=
  decide (pat.data <:+: line.data)

/-- Rust closure `is_filename_valid` in `find_authlib_injector`:
`filename.starts_with("authlib-injector") && filename.ends_with(".jar")`. -/
def is_filename_valid (filename : String) : Bool :=
  decide ("authlib-injector".data <+: filename.data) &&
    decide (".jar".data <:+ filename.data)

/-- Outcome of `validate_args`, made total: the `len < 4` arm evaluates
`args[0]`, which on an empty slice is an out-of-bounds panic, modelled by
the explicit `panicked` case. -/
inductive ValidateOutcome where
  | panicked
  | err (e : MmcaiError)
  | ok
deriving DecidableEq, Repr

/-- Rust `fn validate_args(args: &[String]) -> Result<()>`. -/
def validate_args (args : List String) : ValidateOutcome :=
  if args.length < 4 then
    match args.head? with
    | none => .panicked
    | some a => .err (.InvalidArgument a)
  else if args.length = 4 then .err .CannotRunDirectly
  else .ok

/-- Rust `fn find_authlib_injector`.  A directory that cannot be read is
`none`; a readable directory is the list of its entries in enumeration
order, where an entry is `none` when its `DirEntry` read failed (such
entries are dropped by `filter_map(IoResult::ok)`) and `some name`
otherwise.  (An entry whose name is not valid UTF-8 never matches in the
source — observationally the same as dropping it.)  The returned path is
identified with the matching entry's file name. -/
def find_authlib_injector (dir : Option (List (Option String))) : Option String :=
  match dir with
  | none => none
  | some entries => (entries.filterMap id).find? is_filename_valid

/-- Rust `str::replace(pat, rep)` at the character level: scan left to
right, replacing each leftmost non-overlapping occurrence of `pat` by
`rep`.  The `fuel` argument only drives structural recursion; any
`fuel ≥ s.length` yields the scan's value (each step consumes at least
one character and one unit of fuel). -/
def replaceGo (pat rep : List Char) : Nat → List Char → List Char
  | _, [] => []
  | 0, s => s
  | fuel + 1, c :: rest =>
    if pat ≠ [] ∧ pat <+: (c :: rest) then
      rep ++ replaceGo pat rep fuel (rest.drop (pat.length - 1))
    else
      c :: replaceGo pat rep fuel rest

/-- Rust `str::replace` lifted to `String`. -/
def rustReplace (s pat rep : String) : String :=
  ⟨replaceGo pat.data rep.data s.data.length s.data⟩

/-- Alphabet of the standard base64 encoding used by `BASE64_STANDARD`. -/
def b64Alphabet : List Char :=
  "ABCDEFGHIJKLMNOPQRSTUVWXYZabcdefghijklmnopqrstuvwxyz0123456789+/".data

/-- Character of the standard base64 alphabet at a sextet value. -/
def b64Char (n : Nat) : Char :=
  b64Alphabet.getD n 'A'

/-- Standard base64 (RFC 4648, with padding) over a byte sequence,
three bytes at a time. -/
def base64Chunks : List Nat → List Char
  | [] => []
  | [b0] =>
    [b64Char (b0 / 4), b64Char (b0 % 4 * 16), '=', '=']
  | [b0, b1] =>
    [b64Char (b0 / 4), b64Char (b0 % 4 * 16 + b1 / 16), b64Char (b1 % 16 * 4), '=']
  | b0 :: b1 :: b2 :: rest =>
    b64Char (b0 / 4) :: b64Char (b0 % 4 * 16 + b1 / 16) ::
      b64Char (b1 % 16 * 4 + b2 / 64) :: b64Char (b2 % 64) :: base64Chunks rest

/-- Rust `BASE64_STANDARD.encode(text)`: base64 of the UTF-8 bytes
(`String.utf8EncodeChar` is the UTF-8 encoding of one character, as in
`String.toUTF8`). -/
def base64Encode (s : String) : String :=
  ⟨base64Chunks ((s.data.flatMap String.utf8EncodeChar).map (fun b => b.toNat))⟩

/-- An HTTP response: its status code, the result of
`.json::<AuthResponse>()` and the result of `.text()`.  In reqwest,
`send()` succeeds for any HTTP status (an `Err` means a transport-level
failure only), and `main.rs` never inspects the status of any response,
so `status` is carried here but read by no embedded function. -/
structure HttpResp where
  status : Nat
  parseAuth : Except ReqErr AuthResponse
  bodyText : Except ReqErr String

/-- Outcome of a `send()` call: a transport error or a response. -/
inductive ReqOutcome where
  | err (e : ReqErr)
  | resp (r : HttpResp)

/-- Transport oracle for one `yggdrasil_login` run: the result of builder
construction, of the GET to `api_url`, and of the first and second POST
to the sign-in URL. -/
structure Transport where
  clientBuild : Except ReqErr Unit
  getOutcome : ReqOutcome
  post1 : ReqOutcome
  post2 : ReqOutcome

/-- Diagnostic body of the re-issued sign-in request (`main.rs` lines
184–187): the raw text of the second response, or a placeholder when the
body cannot be read, or another placeholder when the retry itself fails
at the transport level. -/
def diagnosticBody : ReqOutcome → String
  | .resp r =>
    match r.bodyText with
    | .ok s => s
    | .error _ => "<failed to read response body>"
  | .err _ => "<request failed, no response body>"

/-- Result of a login run together with the URLs of the POST requests the
run issued, in order. -/
structure LoginTrace where
  result : Except MmcaiError LoginResult
  postUrls : List String
deriving Repr

/-- Rust `fn yggdrasil_login`.  The `client_token` parameter is accepted
and unused, as in the source. -/
def yggdrasil_login (username password client_token api_url : String)
    (t : Transport) : LoginTrace :=
  match t.clientBuild with
  | .error e => ⟨.error (.ReqwestClientBuildFailed e), []⟩
  | .ok _ =>
    let signin_url := rustReplace api_url "/authlib/minecraft" "/auth/signin"
    let prefetch : Except ReqErr String :=
      match t.getOutcome with
      | .err e => .error e
      | .resp r =>
        match r.bodyText with
        | .error e => .error e
        | .ok txt => .ok (base64Encode txt)
    match prefetch with
    | .error e => ⟨.error (.YggdrasilHelloFailed e), []⟩
    | .ok prefetched_data =>
      let auth1 : Except ReqErr AuthResponse :=
        match t.post1 with
        | .err e => .error e
        | .resp r => r.parseAuth
      match auth1 with
      | .ok resp =>
        ⟨.ok { prefetched_data := prefetched_data,
               access_token := resp.data.access_token,
               selected_profile := { id := resp.data.uuid, name := resp.data.name } },
         [signin_url]⟩
      | .error source =>
        ⟨.error (.YggdrasilAuthFailed source (diagnosticBody t.post2)),
         [signin_url, signin_url]⟩

/-- Loop body of `fn modify_minecraft_params`: `for index in 0..len`,
match on the line at `index` as it stands when reached (guards in source
order), where the first three rules overwrite the line at `index + 1`
(failing with `MmcaiError::Other` when none exists, via
`get_mut(index + 1).ok_or(..)?`), and the last two overwrite the line at
`index` itself.  The returned list is the state of the mutable slice when
the function returns, including the early-error case. -/
def modify_go (access_token uuid playername : String) :
    Nat → List String → Nat → Except MmcaiError Unit × List String
  | 0, params, _ => (.ok (), params)
  | n + 1, params, index =>
    let line := params.getD index ""
    if strContains line "param --username" then
      if index + 1 < params.length then
        modify_go access_token uuid playername n
          (params.set (index + 1) ("param " ++ playername)) (index + 1)
      else (.error .Other, params)
    else if strContains line "param --uuid" then
      if index + 1 < params.length then
        modify_go access_token uuid playername n
          (params.set (index + 1) ("param " ++ uuid)) (index + 1)
      else (.error .Other, params)
    else if strContains line "param --accessToken" then
      if index + 1 < params.length then
        modify_go access_token uuid playername n
          (params.set (index + 1) ("param " ++ access_token)) (index + 1)
      else (.error .Other, params)
    else if strContains line "userName " then
      modify_go access_token uuid playername n
        (params.set index ("userName " ++ playername)) (index + 1)
    else if strContains line "sessionId " then
      modify_go access_token uuid playername n
        (params.set index ("sessionId token:" ++ access_token)) (index + 1)
    else
      modify_go access_token uuid playername n params (index + 1)

/-- Rust `fn modify_minecraft_params`: run the rewrite loop over all
indices `0..len` (the iteration count `len` is the first numeric argument
of `modify_go`, the loop index the second) and return the result together
with the final state of the line list. -/
def modify_minecraft_params (minecraft_params : List String)
    (access_token uuid playername : String) :
    Except MmcaiError Unit × List String :=
  modify_go access_token uuid playername
    minecraft_params.length minecraft_params 0

/-- Disjunction of the three "next line" markers of the rewrite table. -/
def hasNextLineMarker (line : String) : Bool :=
  strContains line "param --username" || strContains line "param --uuid" ||
    strContains line "param --accessToken"

/-- Lines the rewriter can write: the five right-hand sides of the rules. -/
def injected (access_token uuid playername v : String) : Prop :=
  v = "param " ++ playername ∨ v = "param " ++ uuid ∨
    v = "param " ++ access_token ∨ v = "userName " ++ playername ∨
    v = "sessionId token:" ++ access_token

/-- C3: on the eleven-line scenario with the test identity values, the
rewrite succeeds and produces exactly the expected eleven lines, each
line handled by the first matching rule of the table. -/
theorem rewrite_scenario_eleven_lines :
    modify_minecraft_params
      ["---START---", "param --username", "param AnyHow", "param --uuid",
       "param AnyHow", "param --accessToken", "param AnyHow",
       "userName AnyHow", "sessionId AnyHow", "launch", "---END---"]
      "TEST_ACCESS_TOKEN" "TEST_UUID" "TEST_PLAYERNAME" =
    (.ok (),
      ["---START---", "param --username", "param TEST_PLAYERNAME",
       "param --uuid", "param TEST_UUID", "param --accessToken",
       "param TEST_ACCESS_TOKEN", "userName TEST_PLAYERNAME",
       "sessionId token:TEST_ACCESS_TOKEN", "launch", "---END---"]) := rfl

/-- C9: rule dispatch reads the line as it stands when its index is
reached.  With `playername = "param --uuid"`, the line written at index 1
by the `param --username` rule is itself matched as a `param --uuid`
marker, so the original line `"y"` at index 2 (which contains no marker,
as the first two conjuncts witness) is rewritten with the injected uuid. -/
theorem rewrite_dispatch_sees_rewritten_lines :
    strContains "x" "param --uuid" = false ∧
    strContains "y" "param --uuid" = false ∧
    modify_minecraft_params ["param --username", "x", "y"]
      "TOK" "UID" "param --uuid" =
      (.ok (), ["param --username", "param param --uuid", "param UID"]) :=
  ⟨rfl, rfl, rfl⟩

/-- C4, counterexample: an input whose last line contains the marker
`"param --uuid"` (first conjunct) on which the rewrite nevertheless
succeeds, because the `param --username` rule at index 0 overwrites the
last line before its index is reached. -/
theorem rewrite_trailing_marker_counterexample :
    strContains "a param --uuid b" "param --uuid" = true ∧
    modify_minecraft_params ["param --username", "a param --uuid b"]
      "T" "U" "P" = (.ok (), ["param --username", "param P"]) :=
  ⟨rfl, rfl⟩

/-- C10: `validate_args` maps a non-empty argument list shorter than 4 to
`InvalidArgument args[0]`, length exactly 4 to `CannotRunDirectly`, and
length at least 5 to success; the empty list hits the out-of-bounds read
`args[0]`, modelled by the explicit panic outcome. -/
theorem validate_args_cases (args : List String) :
    (args = [] → validate_args args = .panicked) ∧
    (∀ a rest, args = a :: rest → args.length < 4 →
      validate_args args = .err (.InvalidArgument a)) ∧
    (args.length = 4 → validate_args args = .err .CannotRunDirectly) ∧
    (5 ≤ args.length → validate_args args = .ok) := by
  refine ⟨?_, ?_, ?_, ?_⟩
  · rintro rfl; rfl
  · rintro a rest rfl h
    unfold validate_args
    rw [if_pos h]
    rfl
  · intro h
    unfold validate_args
    rw [if_neg (by omega), if_pos h]
  · intro h
    unfold validate_args
    rw [if_neg (by omega), if_neg (by omega)]

/-- Witness for C10 at concrete argument lists of length 0, 1, 4 and 5. -/
theorem validate_args_cases_witness :
    validate_args [] = .panicked ∧
    validate_args ["mmcai_rs"] = .err (.InvalidArgument "mmcai_rs") ∧
    validate_args ["a", "b", "c", "d"] = .err .CannotRunDirectly ∧
    validate_args ["a", "b", "c", "d", "e"] = .ok :=
  ⟨(validate_args_cases []).1 rfl,
   (validate_args_cases ["mmcai_rs"]).2.1 "mmcai_rs" [] rfl (by decide),
   (validate_args_cases ["a", "b", "c", "d"]).2.2.1 (by decide),
   (validate_args_cases ["a", "b", "c", "d", "e"]).2.2.2 (by decide)⟩

/-- C1, counterexample: the spec reads the prefetch phase as failing on
"any transport or non-2xx failure".  The code (`main.rs` line 146,
`client.get(api_url).send()?.text()?`) never inspects the HTTP status:
`send()` errors only at the transport level, so a non-2xx response whose
body is readable is not a prefetch failure.  This counterexample shows a
GET answered with status 404 (non-2xx, first conjunct) and a readable
body: the login does not return `YggdrasilHelloFailed` — it issues the
sign-in POST (second conjunct) and here even succeeds, with the base64
of the 404 body as the prefetched data (third conjunct). -/
theorem prefetch_non2xx_counterexample :
    (404 < 200 ∨ 300 ≤ 404) ∧
    (yggdrasil_login "user" "pass" "ct" "https://s/authlib/minecraft"
      ⟨.ok (), .resp ⟨404, .error ⟨0⟩, .ok "not found"⟩,
       .resp ⟨200, .ok ⟨⟨"UU", "NN", "AT", none, none, none, none, none, none⟩,
                        "OK", 200, "", []⟩, .ok "body"⟩,
       .err ⟨1⟩⟩).postUrls = ["https://s/auth/signin"] ∧
    (yggdrasil_login "user" "pass" "ct" "https://s/authlib/minecraft"
      ⟨.ok (), .resp ⟨404, .error ⟨0⟩, .ok "not found"⟩,
       .resp ⟨200, .ok ⟨⟨"UU", "NN", "AT", none, none, none, none, none, none⟩,
                        "OK", 200, "", []⟩, .ok "body"⟩,
       .err ⟨1⟩⟩).result =
      .ok ⟨base64Encode "not found", "AT", ⟨"UU", "NN"⟩⟩ :=
  ⟨by decide, rfl, rfl⟩

/-- C1 (amended): the prefetch phase fails exactly when `send()` returns
a transport error or the body cannot be read; either case aborts with
`YggdrasilHelloFailed` (the spec's `PrefetchFailed`) carrying the
underlying cause, and the trace contains no POST request — the sign-in
phase is never attempted.  A GET response with a readable body is not a
failure, whatever its HTTP status: the third conjunct shows the sign-in
POST is then always issued. -/
theorem prefetch_failure_aborts_without_signin
    (username password client_token api_url : String) (t : Transport)
    (hb : t.clientBuild = .ok ()) :
    (∀ e, t.getOutcome = .err e →
      yggdrasil_login username password client_token api_url t =
        ⟨.error (.YggdrasilHelloFailed e), []⟩) ∧
    (∀ r e, t.getOutcome = .resp r → r.bodyText = .error e →
      yggdrasil_login username password client_token api_url t =
        ⟨.error (.YggdrasilHelloFailed e), []⟩) ∧
    (∀ r txt, t.getOutcome = .resp r → r.bodyText = .ok txt →
      (yggdrasil_login username password client_token api_url t).postUrls
        ≠ []) := by
  refine ⟨?_, ?_, ?_⟩
  · intro e he
    simp [yggdrasil_login, hb, he]
  · intro r e hr he
    simp [yggdrasil_login, hb, hr, he]
  · intro r txt hr ht
    cases hp : t.post1 with
    | err e => simp [yggdrasil_login, hb, hr, ht, hp]
    | resp r1 =>
      cases hparse : r1.parseAuth with
      | error e => simp [yggdrasil_login, hb, hr, ht, hp, hparse]
      | ok ar => simp [yggdrasil_login, hb, hr, ht, hp, hparse]

/-- Witness for C1: a transport whose GET fails with a transport error;
no POST is issued even though the sign-in oracle would answer. -/
theorem prefetch_failure_aborts_without_signin_witness :
    yggdrasil_login "user" "pass" "ct" "https://s/authlib/minecraft"
      ⟨.ok (), .err ⟨7⟩, .resp ⟨200, .error ⟨1⟩, .ok "zz"⟩, .err ⟨2⟩⟩ =
      ⟨.error (.YggdrasilHelloFailed ⟨7⟩), []⟩ :=
  (prefetch_failure_aborts_without_signin "user" "pass" "ct"
    "https://s/authlib/minecraft" _ rfl).1 ⟨7⟩ rfl

/-- C2: when the prefetch succeeded but the first sign-in response cannot
be parsed as `AuthResponse`, the login issues exactly one further POST to
the same sign-in URL (the trace holds precisely two POSTs, both to the
derived URL) and fails with `YggdrasilAuthFailed` bundling the original
parse failure with the diagnostic body of the second response: that
response's raw text, or `"<failed to read response body>"` when its body
cannot be read, or `"<request failed, no response body>"` when the retry
fails at the transport level. -/
theorem parse_failure_triggers_single_diagnostic_retry
    (username password client_token api_url : String) (t : Transport)
    (hb : t.clientBuild = .ok ()) (r : HttpResp) (txt : String)
    (hg : t.getOutcome = .resp r) (ht : r.bodyText = .ok txt)
    (r1 : HttpResp) (source : ReqErr)
    (hp : t.post1 = .resp r1) (hparse : r1.parseAuth = .error source) :
    yggdrasil_login username password client_token api_url t =
      ⟨.error (.YggdrasilAuthFailed source (diagnosticBody t.post2)),
       [rustReplace api_url "/authlib/minecraft" "/auth/signin",
        rustReplace api_url "/authlib/minecraft" "/auth/signin"]⟩ ∧
    (∀ r2 body, t.post2 = .resp r2 → r2.bodyText = .ok body →
      diagnosticBody t.post2 = body) ∧
    (∀ r2 e, t.post2 = .resp r2 → r2.bodyText = .error e →
      diagnosticBody t.post2 = "<failed to read response body>") ∧
    (∀ e, t.post2 = .err e →
      diagnosticBody t.post2 = "<request failed, no response body>") := by
  refine ⟨?_, ?_, ?_, ?_⟩
  · simp [yggdrasil_login, hb, hg, ht, hp, hparse]
  · intro r2 body h2 hbody
    simp [diagnosticBody, h2, hbody]
  · intro r2 e h2 hbody
    simp [diagnosticBody, h2, hbody]
  · intro e h2
    simp [diagnosticBody, h2]

/-- Witness for C2: a parse failure on the first POST, a readable second
response with body `"RAW"`; the run issues exactly two POSTs to the
derived sign-in URL and reports the parse failure with body `"RAW"`. -/
theorem parse_failure_triggers_single_diagnostic_retry_witness :
    yggdrasil_login "user" "pass" "ct" "https://s/authlib/minecraft"
      ⟨.ok (), .resp ⟨200, .error ⟨9⟩, .ok "meta"⟩,
       .resp ⟨200, .error ⟨5⟩, .ok "ignored"⟩,
       .resp ⟨500, .error ⟨9⟩, .ok "RAW"⟩⟩ =
      ⟨.error (.YggdrasilAuthFailed ⟨5⟩ "RAW"),
       ["https://s/auth/signin", "https://s/auth/signin"]⟩ := by
  have h := (parse_failure_triggers_single_diagnostic_retry "user" "pass" "ct"
    "https://s/authlib/minecraft"
    ⟨.ok (), .resp ⟨200, .error ⟨9⟩, .ok "meta"⟩,
     .resp ⟨200, .error ⟨5⟩, .ok "ignored"⟩,
     .resp ⟨500, .error ⟨9⟩, .ok "RAW"⟩⟩ rfl ⟨200, .error ⟨9⟩, .ok "meta"⟩
    "meta" rfl rfl ⟨200, .error ⟨5⟩, .ok "ignored"⟩ ⟨5⟩ rfl rfl).1
  rw [h]
  rfl

/-- C6: whenever the login succeeds, the result is exactly the one built
from the two responses: the base64 of the prefetch body, and the access
token, uuid and name of the parsed sign-in response — no partially
populated result exists. -/
theorem login_success_fields
    (username password client_token api_url : String) (t : Transport)
    (lr : LoginResult)
    (h : (yggdrasil_login username password client_token api_url t).result = .ok lr) :
    ∃ r txt r1 ar,
      t.getOutcome = .resp r ∧ r.bodyText = .ok txt ∧
      t.post1 = .resp r1 ∧ r1.parseAuth = .ok ar ∧
      lr = { prefetched_data := base64Encode txt,
             access_token := ar.data.access_token,
             selected_profile := { id := ar.data.uuid, name := ar.data.name } } := by
  rcases t with ⟨cb, go, p1, p2⟩
  cases cb with
  | error e => simp [yggdrasil_login] at h
  | ok u =>
    cases go with
    | err e => simp [yggdrasil_login] at h
    | resp r =>
      cases ht : r.bodyText with
      | error e => simp [yggdrasil_login, ht] at h
      | ok txt =>
        cases p1 with
        | err e => simp [yggdrasil_login, ht] at h
        | resp r1 =>
          cases hp : r1.parseAuth with
          | error e => simp [yggdrasil_login, ht, hp] at h
          | ok ar =>
            refine ⟨r, txt, r1, ar, rfl, ht, rfl, hp, ?_⟩
            simp [yggdrasil_login, ht, hp] at h
            exact h.symm

/-- Witness for C6 at a concrete fully successful transport. -/
theorem login_success_fields_witness :
    ∃ r txt r1 ar,
      (Transport.mk (.ok ()) (.resp ⟨200, .error ⟨1⟩, .ok "meta"⟩)
        (.resp ⟨200, .ok ⟨⟨"UU", "NN", "AT", none, none, none, none, none, none⟩,
                     "OK", 200, "", []⟩, .ok "body"⟩)
        (.err ⟨2⟩)).getOutcome = .resp r ∧
      r.bodyText = .ok txt ∧
      (Transport.mk (.ok ()) (.resp ⟨200, .error ⟨1⟩, .ok "meta"⟩)
        (.resp ⟨200, .ok ⟨⟨"UU", "NN", "AT", none, none, none, none, none, none⟩,
                     "OK", 200, "", []⟩, .ok "body"⟩)
        (.err ⟨2⟩)).post1 = .resp r1 ∧
      r1.parseAuth = .ok ar ∧
      (LoginResult.mk (base64Encode "meta") "AT" ⟨"UU", "NN"⟩) =
        { prefetched_data := base64Encode txt,
          access_token := ar.data.access_token,
          selected_profile := { id := ar.data.uuid, name := ar.data.name } } :=
  login_success_fields "user" "pass" "ct" "https://s/authlib/minecraft"
    _ _ rfl

/-- C7: full characterization of the locator.  An unreadable directory
yields `none`; the locator returns `some f` exactly when `f` is the
first readable entry, in enumeration order, whose name starts with
`authlib-injector` and ends with `.jar`; it returns `none` exactly when
no entry matches; every directory containing a match therefore yields
its first match (fourth conjunct, the positive direction); and the name
test is an exact case-sensitive substring check, as the four concrete
names witness. -/
theorem locate_first_match :
    find_authlib_injector none = none ∧
    (∀ entries f, find_authlib_injector (some entries) = some f ↔
      (is_filename_valid f = true ∧
       ∃ pre post, entries.filterMap id = pre ++ f :: post ∧
         ∀ g ∈ pre, is_filename_valid g = false)) ∧
    (∀ entries, find_authlib_injector (some entries) = none ↔
      ∀ g ∈ entries.filterMap id, is_filename_valid g = false) ∧
    (∀ entries pre f post,
      entries.filterMap id = pre ++ f :: post →
      is_filename_valid f = true →
      (∀ g ∈ pre, is_filename_valid g = false) →
      find_authlib_injector (some entries) = some f) ∧
    (is_filename_valid "authlib-injector-1.0.0.jar" = true ∧
     is_filename_valid "authlib-injector-1.0.0.zip" = false ∧
     is_filename_valid "not-start-with.authlib-injector.jar" = false ∧
     is_filename_valid "authlib-injector.jar.not-end-with" = false) := by
  have hchar : ∀ (entries : List (Option String)) (f : String),
      find_authlib_injector (some entries) = some f ↔
      (is_filename_valid f = true ∧
       ∃ pre post, entries.filterMap id = pre ++ f :: post ∧
         ∀ g ∈ pre, is_filename_valid g = false) := by
    intro entries f
    rw [show find_authlib_injector (some entries) =
          (entries.filterMap id).find? is_filename_valid from rfl,
        List.find?_eq_some]
    constructor
    · rintro ⟨hf, pre, post, heq, hall⟩
      exact ⟨hf, pre, post, heq, fun g hg => by simpa using hall g hg⟩
    · rintro ⟨hf, pre, post, heq, hall⟩
      exact ⟨hf, pre, post, heq, fun g hg => by simp [hall g hg]⟩
  refine ⟨rfl, hchar, ?_, ?_, by decide⟩
  · intro entries
    rw [show find_authlib_injector (some entries) =
          (entries.filterMap id).find? is_filename_valid from rfl,
        List.find?_eq_none]
    constructor
    · intro h g hg
      simpa using h g hg
    · intro h g hg
      simp [h g hg]
  · intro entries pre f post heq hf hall
    exact (hchar entries f).mpr ⟨hf, pre, post, heq, hall⟩

/-- Witness for C7: in a directory holding a `.zip` decoy, an unreadable
entry, and two matching jars, the first matching jar is returned. -/
theorem locate_first_match_witness :
    find_authlib_injector (some [some "authlib-injector-1.0.0.zip", none,
      some "authlib-injector-1.0.0.jar", some "authlib-injector-2.jar"]) =
      some "authlib-injector-1.0.0.jar" :=
  locate_first_match.2.2.2.1
    [some "authlib-injector-1.0.0.zip", none,
     some "authlib-injector-1.0.0.jar", some "authlib-injector-2.jar"]
    ["authlib-injector-1.0.0.zip"] "authlib-injector-1.0.0.jar"
    ["authlib-injector-2.jar"] rfl rfl (by decide)

/-- A scan that never sees the pattern leaves the character list
unchanged. -/
theorem replaceGo_pattern_absent (pat rep : List Char) :
    ∀ (fuel : Nat) (s : List Char), ¬ (pat <:+: s) →
      replaceGo pat rep fuel s = s := by
  intro fuel
  induction fuel with
  | zero =>
    intro s h
    cases s <;> rfl
  | succ n ih =>
    intro s h
    cases s with
    | nil => rfl
    | cons c rest =>
      simp only [replaceGo]
      rw [if_neg, ih rest (fun hinf => h (List.infix_cons hinf))]
      rintro ⟨hne, hpre⟩
      exact h hpre.isInfix

/-- C8: every POST the login issues goes to `api_url` with each
occurrence of the exact substring `/authlib/minecraft` replaced by
`/auth/signin`; a URL not containing the substring is used unchanged, and
the replacement applies wherever the substring occurs (last conjunct: two
occurrences, one mid-URL). -/
theorem signin_url_replacement
    (username password client_token api_url : String) (t : Transport) :
    (∀ url ∈ (yggdrasil_login username password client_token api_url t).postUrls,
      url = rustReplace api_url "/authlib/minecraft" "/auth/signin") ∧
    (strContains api_url "/authlib/minecraft" = false →
      rustReplace api_url "/authlib/minecraft" "/auth/signin" = api_url) ∧
    rustReplace "https://h.example/authlib/minecraft/v2/authlib/minecraft"
      "/authlib/minecraft" "/auth/signin" =
      "https://h.example/auth/signin/v2/auth/signin" := by
  refine ⟨?_, ?_, rfl⟩
  · intro url hurl
    rcases t with ⟨cb, go, p1, p2⟩
    cases cb with
    | error e => simp [yggdrasil_login] at hurl
    | ok u =>
      cases go with
      | err e => simp [yggdrasil_login] at hurl
      | resp r =>
        cases ht : r.bodyText with
        | error e => simp [yggdrasil_login, ht] at hurl
        | ok txt =>
          cases p1 with
          | err e =>
            simp [yggdrasil_login, ht] at hurl
            tauto
          | resp r1 =>
            cases hp : r1.parseAuth with
            | error e =>
              simp [yggdrasil_login, ht, hp] at hurl
              tauto
            | ok ar =>
              simp [yggdrasil_login, ht, hp] at hurl
              exact hurl
  · intro h
    have hni : ¬ ("/authlib/minecraft".data <:+: api_url.data) :=
      of_decide_eq_false h
    show String.mk (replaceGo "/authlib/minecraft".data "/auth/signin".data
      api_url.data.length api_url.data) = api_url
    rw [replaceGo_pattern_absent _ _ _ _ hni]

/-- Witness for C8: a URL without the substring is used verbatim. -/
theorem signin_url_replacement_witness :
    rustReplace "https://nope.example/api" "/authlib/minecraft" "/auth/signin" =
      "https://nope.example/api" :=
  (signin_url_replacement "user" "pass" "ct" "https://nope.example/api"
    ⟨.ok (), .err ⟨1⟩, .err ⟨1⟩, .err ⟨1⟩⟩).2.1 (by decide)

/-- The rewrite loop never changes the number of lines, from any starting
index and for any iteration count. -/
theorem modify_go_length (access_token uuid playername : String) :
    ∀ (n : Nat) (params : List String) (index : Nat),
      ((modify_go access_token uuid playername n params index).2).length
        = params.length := by
  intro n
  induction n with
  | zero => intro params index; rfl
  | succ n ih =>
    intro params index
    simp only [modify_go]
    repeat' split
    all_goals simp [ih, List.length_set]

/-- Transfer of the pointwise invariant across one in-place `set`. -/
theorem rewrite_step_aux (R : String → Prop) {out params : List String}
    {k j : Nat} {w : String}
    (h : out[j]? = (params.set k w)[j]? ∨ ∃ v, R v ∧ out[j]? = some v)
    (hw : R w) :
    out[j]? = params[j]? ∨ ∃ v, R v ∧ out[j]? = some v := by
  rcases h with h | h
  · rw [List.getElem?_set] at h
    by_cases hkj : k = j
    · subst hkj
      rw [if_pos rfl] at h
      by_cases hk : k < params.length
      · rw [if_pos hk] at h
        exact .inr ⟨w, hw, h⟩
      · rw [if_neg hk] at h
        exact .inl (h.trans (List.getElem?_eq_none (by omega)).symm)
    · rw [if_neg hkj] at h
      exact .inl h
  · exact .inr h

/-- Pointwise invariant of the rewrite loop: every output position holds
either the input line of the same position or one of the five injected
right-hand sides. -/
theorem modify_go_pointwise (access_token uuid playername : String) :
    ∀ (n : Nat) (params : List String) (index j : Nat),
      ((modify_go access_token uuid playername n params index).2)[j]?
          = params[j]? ∨
      ∃ v, injected access_token uuid playername v ∧
        ((modify_go access_token uuid playername n params index).2)[j]?
          = some v := by
  intro n
  induction n with
  | zero => intro params index j; left; rfl
  | succ n ih =>
    intro params index j
    simp only [modify_go]
    repeat' split
    · exact rewrite_step_aux (injected access_token uuid playername)
        (ih (params.set (index + 1) ("param " ++ playername)) (index + 1) j)
        (Or.inl rfl)
    · left; rfl
    · exact rewrite_step_aux (injected access_token uuid playername)
        (ih (params.set (index + 1) ("param " ++ uuid)) (index + 1) j)
        (Or.inr (Or.inl rfl))
    · left; rfl
    · exact rewrite_step_aux (injected access_token uuid playername)
        (ih (params.set (index + 1) ("param " ++ access_token)) (index + 1) j)
        (Or.inr (Or.inr (Or.inl rfl)))
    · left; rfl
    · exact rewrite_step_aux (injected access_token uuid playername)
        (ih (params.set index ("userName " ++ playername)) (index + 1) j)
        (Or.inr (Or.inr (Or.inr (Or.inl rfl))))
    · exact rewrite_step_aux (injected access_token uuid playername)
        (ih (params.set index ("sessionId token:" ++ access_token)) (index + 1) j)
        (Or.inr (Or.inr (Or.inr (Or.inr rfl))))
    · exact ih params (index + 1) j

/-- C5: for every input (matching or not, success or error), the rewrite
returns a line list of the same length, and each position holds either
the input line of that position or one of the five injected lines —
lines are replaced in place, never inserted, removed or reordered. -/
theorem rewrite_preserves_length_and_positions
    (params : List String) (access_token uuid playername : String) :
    ((modify_minecraft_params params access_token uuid playername).2).length
        = params.length ∧
    ∀ j : Nat,
      ((modify_minecraft_params params access_token uuid playername).2)[j]?
          = params[j]? ∨
      ∃ v, injected access_token uuid playername v ∧
        ((modify_minecraft_params params access_token uuid playername).2)[j]?
          = some v := by
  unfold modify_minecraft_params
  exact ⟨modify_go_length access_token uuid playername params.length params 0,
    fun j => modify_go_pointwise access_token uuid playername
      params.length params 0 j⟩

/-- Reading at a position other than the one just overwritten sees the
old line. -/
theorem set_getD_ne (ps : List String) (k j : Nat) (w : String) (hkj : k ≠ j) :
    (ps.set k w).getD j "" = ps.getD j "" := by
  simp [List.getD_eq_getElem?_getD, List.getElem?_set_ne hkj]

/-- When every line from the current index up to (but excluding) the last
contains no next-line marker and the last line contains one, the rewrite
loop reaches the last line unchanged and fails with `Other` there. -/
theorem modify_go_trailing (access_token uuid playername : String) :
    ∀ (n : Nat) (params : List String) (index : Nat),
      index + n = params.length → 1 ≤ n →
      (∀ j : Nat, index ≤ j → j + 1 < params.length →
        hasNextLineMarker (params.getD j "") = false) →
      hasNextLineMarker (params.getD (params.length - 1) "") = true →
      (modify_go access_token uuid playername n params index).1
        = .error .Other := by
  intro n
  induction n with
  | zero =>
    intro params index hlen hone _ _
    omega
  | succ n ih =>
    intro params index hlen hone hear hlast
    by_cases hn : n = 0
    · subst hn
      have hm : hasNextLineMarker (params.getD index "") = true := by
        have hidx : index = params.length - 1 := by omega
        rw [hidx]; exact hlast
      have hlt : ¬ (index + 1 < params.length) := by omega
      simp only [modify_go]
      cases hA : strContains (params.getD index "") "param --username" with
      | true => simp [hA, hlt]
      | false =>
        cases hB : strContains (params.getD index "") "param --uuid" with
        | true => simp [hA, hB, hlt]
        | false =>
          cases hC : strContains (params.getD index "") "param --accessToken" with
          | true => simp [hA, hB, hC, hlt]
          | false =>
            unfold hasNextLineMarker at hm
            rw [hA, hB, hC] at hm
            exact absurd hm (by decide)
    · have hin : index + 1 < params.length := by omega
      have hno := hear index (Nat.le_refl _) hin
      simp only [hasNextLineMarker, Bool.or_eq_false_iff] at hno
      obtain ⟨⟨hA, hB⟩, hC⟩ := hno
      cases hD : strContains (params.getD index "") "userName " with
      | true =>
        simp only [modify_go, hA, hB, hC, hD, Bool.false_eq_true, if_false, if_true]
        refine ih _ (index + 1) ?_ (by omega) ?_ ?_
        · simp [List.length_set]; omega
        · intro j hj hjlt
          rw [List.length_set] at hjlt
          rw [set_getD_ne _ _ _ _ (by omega)]
          exact hear j (by omega) hjlt
        · rw [List.length_set, set_getD_ne _ _ _ _ (by omega)]
          exact hlast
      | false =>
        cases hE : strContains (params.getD index "") "sessionId " with
        | true =>
          simp only [modify_go, hA, hB, hC, hD, hE, Bool.false_eq_true,
            if_false, if_true]
          refine ih _ (index + 1) ?_ (by omega) ?_ ?_
          · simp [List.length_set]; omega
          · intro j hj hjlt
            rw [List.length_set] at hjlt
            rw [set_getD_ne _ _ _ _ (by omega)]
            exact hear j (by omega) hjlt
          · rw [List.length_set, set_getD_ne _ _ _ _ (by omega)]
            exact hlast
        | false =>
          simp only [modify_go, hA, hB, hC, hD, hE, Bool.false_eq_true,
            if_false]
          exact ih params (index + 1) (by omega) (by omega)
            (fun j hj hjlt => hear j (by omega) hjlt) hlast

/-- C4 (amended): on every non-empty sequence whose last line contains a
next-line marker and whose earlier lines contain none of the three
next-line markers, the rewrite fails with the `Other` (out-of-bounds)
error — the embedding is total, so no out-of-range access occurs, and
the marker is not silently skipped.  (The restriction on earlier lines is
forced by the concrete counterexample recorded above: an earlier
next-line rule can overwrite the final line before its index is
reached.) -/
theorem rewrite_trailing_marker_errors
    (params : List String) (access_token uuid playername : String)
    (hne : params ≠ [])
    (hlast : hasNextLineMarker (params.getD (params.length - 1) "") = true)
    (hearlier : ∀ j : Nat, j + 1 < params.length →
      hasNextLineMarker (params.getD j "") = false) :
    (modify_minecraft_params params access_token uuid playername).1
      = .error .Other := by
  unfold modify_minecraft_params
  refine modify_go_trailing access_token uuid playername params.length params 0
    (by omega) ?_ (fun j _ hj => hearlier j hj) hlast
  have hnz : params.length ≠ 0 := fun h => hne (List.length_eq_zero.mp h)
  omega

/-- Witness for C4 at the one-line sequence `["param --uuid"]`. -/
theorem rewrite_trailing_marker_errors_witness :
    (modify_minecraft_params ["param --uuid"] "T" "U" "P").1
      = .error .Other :=
  rewrite_trailing_marker_errors ["param --uuid"] "T" "U" "P"
    (by simp) (by rfl)
    (by
      intro j hj
      simp only [List.length_cons, List.length_nil] at hj
      exact absurd hj (by omega))

end Mmcai
